import Mathlib

/-!
A shallow embedding of the `shift` configuration loader (shift.go) together
with proofs about it.  Go strings are modelled as Lean strings; the
`unicode.IsUpper` / `unicode.ToLower` calls in `toCamel` are modelled by
Lean's ASCII `Char.isUpper` / `Char.toLower`, which agree with Go on the
ASCII field names the package works with.
-/

namespace Shift

/-- The loop of `toCamel` (shift.go) for every character after the first.
`last` records whether the previous character was uppercase, exactly like the
`last` variable of the Go loop; the inner match on `rest` models the
`i+1 < ln && !unicode.IsUpper(r[i+1])` test. -/
def toCamelAux : Bool → List Char → List Char
  | _, [] => []
  | last, c :: rest =>
    (if c.isUpper && (!last || (match rest with | d :: _ => !d.isUpper | [] => false))
      then ['_'] else [])
    ++ (c.toLower :: toCamelAux c.isUpper rest)

/-- `toCamel` (shift.go): derives the lowercase, underscore-separated key
from a field name.  The first character is written without the underscore
test (the Go loop guards the test with `i != 0`) and initialises `last`. -/
def toCamel (s : String) : String :=
  match s.data with
  | [] => ⟨[]⟩
  | c :: rest => ⟨c.toLower :: toCamelAux c.isUpper rest⟩

/-- The underscore-insertion rule as the specification words it, tracking the
preceding character `prev` itself: an underscore is inserted before an
uppercase character exactly when it is not the first character and either the
preceding character was not uppercase, or the following character exists and
is not uppercase. -/
def toCamelSpecAux : Char → List Char → List Char
  | _, [] => []
  | prev, c :: rest =>
    (if c.isUpper && (!prev.isUpper || (match rest with | d :: _ => !d.isUpper | [] => false))
      then ['_'] else [])
    ++ (c.toLower :: toCamelSpecAux c rest)

/-- The specification's key-derivation function: all characters lowercased,
underscores inserted by the rule of `toCamelSpecAux`, never before the first
character. -/
def toCamelSpec (s : String) : String :=
  match s.data with
  | [] => ⟨[]⟩
  | c :: rest => ⟨c.toLower :: toCamelSpecAux c rest⟩

theorem toCamelSpecAux_eq (l : List Char) : ∀ prev : Char,
    toCamelSpecAux prev l = toCamelAux prev.isUpper l := by
  induction l with
  | nil => intro prev; rfl
  | cons c rest ih => intro prev; simp only [toCamelSpecAux, toCamelAux, ih c]

theorem isUpper_eq (c : Char) :
    c.isUpper = (decide (65 ≤ c.toNat) && decide (c.toNat ≤ 90)) := rfl

theorem ofNat_lower_not_upper (n : Nat) (h1 : 97 ≤ n) (h2 : n ≤ 122) :
    (Char.ofNat n).isUpper = false := by
  interval_cases n <;> decide

theorem toLower_not_upper (c : Char) : c.toLower.isUpper = false := by
  show (if 65 ≤ c.toNat ∧ c.toNat ≤ 90 then Char.ofNat (c.toNat + 32) else c).isUpper = false
  split
  · next h => exact ofNat_lower_not_upper _ (by omega) (by omega)
  · next h =>
    rw [isUpper_eq]
    simp only [Bool.and_eq_false_iff, decide_eq_false_iff_not]
    omega

theorem toLower_eq_self (c : Char) (h : c.isUpper = false) : c.toLower = c := by
  show (if 65 ≤ c.toNat ∧ c.toNat ≤ 90 then Char.ofNat (c.toNat + 32) else c) = c
  split
  · next hc =>
    rw [isUpper_eq] at h
    simp only [Bool.and_eq_false_iff, decide_eq_false_iff_not] at h
    omega
  · rfl

theorem toCamelAux_not_upper (l : List Char) : ∀ (last : Bool) (c : Char),
    c ∈ toCamelAux last l → c.isUpper = false := by
  induction l with
  | nil => intro last c h; simp [toCamelAux] at h
  | cons d rest ih =>
    intro last c h
    simp only [toCamelAux, List.mem_append, List.mem_cons] at h
    rcases h with h | h | h
    · split at h
      · simp only [List.mem_singleton] at h; subst h; decide
      · simp at h
    · subst h; exact toLower_not_upper d
    · exact ih d.isUpper c h

theorem toCamelAux_id (l : List Char) (hl : ∀ c ∈ l, c.isUpper = false) :
    ∀ last : Bool, toCamelAux last l = l := by
  induction l with
  | nil => intro last; rfl
  | cons d rest ih =>
    intro last
    have hd : d.isUpper = false := hl d (List.mem_cons_self d rest)
    simp only [toCamelAux, hd, Bool.false_and, Bool.false_eq_true, if_false,
      List.nil_append, toLower_eq_self d hd]
    rw [ih (fun c hc => hl c (List.mem_cons_of_mem d hc)) false]

theorem toCamel_data_not_upper (s : String) :
    ∀ c ∈ (toCamel s).data, c.isUpper = false := by
  obtain ⟨l⟩ := s
  cases l with
  | nil => intro c h; simp [toCamel] at h
  | cons d rest =>
    intro c h
    simp only [toCamel, List.mem_cons] at h
    rcases h with h | h
    · subst h; exact toLower_not_upper d
    · exact toCamelAux_not_upper rest d.isUpper c h

theorem toCamel_id_of_not_upper (s : String) (h : ∀ c ∈ s.data, c.isUpper = false) :
    toCamel s = s := by
  obtain ⟨l⟩ := s
  cases l with
  | nil => rfl
  | cons d rest =>
    have hd : d.isUpper = false := h d (List.mem_cons_self d rest)
    simp only [toCamel]
    rw [toLower_eq_self d hd,
      toCamelAux_id rest (fun c hc => h c (List.mem_cons_of_mem d hc)) d.isUpper]

/-- C1: `toCamel` lowercases every character and inserts an underscore before
an uppercase character exactly when it is not the first character and either
the preceding character was not uppercase, or the following character exists
and is not uppercase (`toCamelSpec` states that rule in the spec's own
terms); in particular the four documented examples hold. -/
theorem toCamel_refines_underscore_rule :
    (∀ s : String, toCamel s = toCamelSpec s)
    ∧ toCamel "oneTwo" = "one_two"
    ∧ toCamel "OneTwo" = "one_two"
    ∧ toCamel "OneTWOThree" = "one_two_three"
    ∧ toCamel "ONETWOThree" = "onetwo_three" := by
  refine ⟨fun s => ?_, by decide, by decide, by decide, by decide⟩
  obtain ⟨l⟩ := s
  cases l with
  | nil => rfl
  | cons c rest => simp only [toCamel, toCamelSpec, toCamelSpecAux_eq rest c]

/-- C9: the key derivation is idempotent — `toCamel (toCamel s) = toCamel s`
for every string — and a string with no uppercase characters (in particular
an already-lowercase, already-underscored key) is returned unchanged. -/
theorem toCamel_idempotent :
    (∀ s : String, toCamel (toCamel s) = toCamel s)
    ∧ ∀ s : String, (∀ c ∈ s.data, c.isUpper = false) → toCamel s = s := by
  refine ⟨fun s => ?_, fun s h => toCamel_id_of_not_upper s h⟩
  exact toCamel_id_of_not_upper _ (toCamel_data_not_upper s)

/-- Concrete instance of `toCamel_idempotent`. -/
theorem toCamel_idempotent_check :
    toCamel (toCamel "IDMonster") = toCamel "IDMonster"
    ∧ toCamel "id_monster" = "id_monster" :=
  ⟨toCamel_idempotent.1 "IDMonster", toCamel_idempotent.2 "id_monster" (by decide)⟩

/-- `int64ToInt` (shift.go): converts an `int64` to the native `int` after a
bounds check.  `sz` models the package-level `sizeOfInt` (the native integer
size in bytes, 8 on 64-bit platforms, 4 on 32-bit ones). -/
def int64ToInt (sz : Nat) (i : Int) : Except String Int :=
  if sz = 8 then .ok i
  else if i > 2147483647 then .error ("integer too big " ++ toString i)
  else if i < -2147483648 then .error ("integer too small " ++ toString i)
  else .ok i

/-- `uint64ToUint` (shift.go): converts a `uint64` to the native `uint` after
a bounds check against `math.MaxUint32` when the native size is not 8 bytes. -/
def uint64ToUint (sz : Nat) (u : Nat) : Except String Nat :=
  if sz = 8 then .ok u
  else if u > 4294967295 then .error ("unsigned integer too big " ++ toString u)
  else .ok u

/-- C8: with a 64-bit native width both narrowing operations are lossless and
always succeed; with a 32-bit native width they fail with an overflow error
exactly when the input is outside the 32-bit signed (resp. unsigned) range
and otherwise return the input unchanged; narrowing `2^31` to a 32-bit
native signed integer fails, narrowing `23` succeeds and yields `23`. -/
theorem int64ToInt_uint64ToUint_bounds :
    (∀ i : Int, int64ToInt 8 i = .ok i)
    ∧ (∀ u : Nat, uint64ToUint 8 u = .ok u)
    ∧ (∀ i : Int, -(2 ^ 31) ≤ i → i ≤ 2 ^ 31 - 1 → int64ToInt 4 i = .ok i)
    ∧ (∀ i : Int, 2 ^ 31 - 1 < i →
        int64ToInt 4 i = .error ("integer too big " ++ toString i))
    ∧ (∀ i : Int, i < -(2 ^ 31) →
        int64ToInt 4 i = .error ("integer too small " ++ toString i))
    ∧ (∀ u : Nat, u ≤ 2 ^ 32 - 1 → uint64ToUint 4 u = .ok u)
    ∧ (∀ u : Nat, 2 ^ 32 - 1 < u →
        uint64ToUint 4 u = .error ("unsigned integer too big " ++ toString u))
    ∧ int64ToInt 4 (2 ^ 31) = .error "integer too big 2147483648"
    ∧ uint64ToUint 4 (2 ^ 32) = .error "unsigned integer too big 4294967296"
    ∧ int64ToInt 4 23 = .ok 23
    ∧ uint64ToUint 4 23 = .ok 23 := by
  refine ⟨fun i => rfl, fun u => rfl, fun i h1 h2 => ?_, fun i h => ?_, fun i h => ?_,
    fun u h => ?_, fun u h => ?_, rfl, rfl, rfl, rfl⟩
  · simp only [int64ToInt]
    rw [if_neg (by omega), if_neg (by omega), if_neg (by omega)]
  · simp only [int64ToInt]
    rw [if_neg (by omega), if_pos (by omega)]
  · simp only [int64ToInt]
    rw [if_neg (by omega), if_neg (by omega), if_pos (by omega)]
  · simp only [uint64ToUint]
    rw [if_neg (by omega), if_neg (by omega)]
  · simp only [uint64ToUint]
    rw [if_neg (by omega), if_pos (by omega)]

/-- Concrete instances of `int64ToInt_uint64ToUint_bounds`. -/
theorem int64ToInt_uint64ToUint_bounds_check :
    int64ToInt 4 23 = .ok 23
    ∧ int64ToInt 4 2147483648 = .error "integer too big 2147483648"
    ∧ int64ToInt 4 (-2147483649) = .error "integer too small -2147483649"
    ∧ uint64ToUint 4 4294967295 = .ok 4294967295
    ∧ uint64ToUint 4 4294967296 = .error "unsigned integer too big 4294967296" :=
  ⟨int64ToInt_uint64ToUint_bounds.2.2.1 23 (by decide) (by decide),
   int64ToInt_uint64ToUint_bounds.2.2.2.1 2147483648 (by decide),
   int64ToInt_uint64ToUint_bounds.2.2.2.2.1 (-2147483649) (by decide),
   int64ToInt_uint64ToUint_bounds.2.2.2.2.2.1 4294967295 (by decide),
   int64ToInt_uint64ToUint_bounds.2.2.2.2.2.2.1 4294967296 (by decide)⟩

/-- Stand-in for a Go `float64` value: the binder never computes with
floats, it only moves them between the decoder, the parser and the field. -/
structure FloatRep where
  bits : Nat
deriving DecidableEq, Repr

/-- Stand-in for a Go `time.Time` value as produced by the TOML decoder. -/
structure TimeRep where
  ticks : Nat
deriving DecidableEq, Repr

/-- The declared field types supported by the binder (the Go kinds it
switches on, with `time.Duration` and `time.Time` distinguished from plain
`int64` / struct the way the source compares `fieldType` against
`typeDuration` / `typeTime`). -/
inductive FieldType
  | tString
  | tBool
  | tInt
  | tInt64
  | tDuration
  | tUint
  | tUint64
  | tFloat64
  | tTime
  | tStringArr
deriving DecidableEq, Repr

/-- The name `reflect` prints for a declared field type (`Type.String()`). -/
def FieldType.string : FieldType → String
  | .tString => "string"
  | .tBool => "bool"
  | .tInt => "int"
  | .tInt64 => "int64"
  | .tDuration => "time.Duration"
  | .tUint => "uint"
  | .tUint64 => "uint64"
  | .tFloat64 => "float64"
  | .tTime => "time.Time"
  | .tStringArr => "[]string"

/-- A dynamically typed value as the TOML decoder produces it (a Go
interface value): text, boolean, 64-bit integer, float, timestamp, array or
table. -/
inductive Intf
  | vString (s : String)
  | vBool (b : Bool)
  | vInt64 (i : Int)
  | vFloat64 (f : FloatRep)
  | vTime (t : TimeRep)
  | vArr (l : List Intf)
  | vMap (m : List (String × Intf))

/-- The name `reflect.TypeOf(val).String()` prints for a decoded value. -/
def Intf.typeName : Intf → String
  | .vString _ => "string"
  | .vBool _ => "bool"
  | .vInt64 _ => "int64"
  | .vFloat64 _ => "float64"
  | .vTime _ => "time.Time"
  | .vArr _ => "[]interface \x7b\x7d"
  | .vMap _ => "map[string]interface \x7b\x7d"

/-- The value held by one struct field slot. -/
inductive FieldValue
  | fvString (s : String)
  | fvBool (b : Bool)
  | fvInt (i : Int)
  | fvInt64 (i : Int)
  | fvDuration (d : Int)
  | fvUint (n : Nat)
  | fvUint64 (n : Nat)
  | fvFloat64 (f : FloatRep)
  | fvTime (t : TimeRep)
  | fvStringArr (l : List String)
deriving DecidableEq, Repr

/-- Result of a Go computation that can return normally, return an error,
or panic. -/
inductive Outcome (α : Type)
  | ok (v : α)
  | err (msg : String)
  | panic (msg : String)
deriving DecidableEq, Repr

/-- The standard-library parsing collaborators the assignment paths delegate
to: `time.ParseDuration`, `time.Parse` with the RFC3339 layout, and
`strconv.ParseFloat`.  The claims proved here hold for every behaviour of
these collaborators, so they are passed as parameters. -/
structure Stdlib where
  parseDuration : String → Except String Int
  parseRFC3339 : String → Except String TimeRep
  parseFloat : String → Except String FloatRep

/-- A concrete instance of the collaborators, used only to evaluate the
model at specific inputs. -/
def stdModel : Stdlib where
  parseDuration := fun s => if s = "15s" then .ok 15000000000 else .error "time: invalid duration"
  parseRFC3339 := fun _ => .error "cannot parse as RFC3339"
  parseFloat := fun _ => .error "invalid syntax"

/-- Decimal digit test for the strconv model. -/
def isDigit (c : Char) : Bool := 48 ≤ c.toNat && c.toNat ≤ 57

/-- Model of `strconv.ParseUint(s, 10, bitSize)`: a nonempty all-digit
string whose value fits in `bitSize` bits. -/
def goParseUint (s : String) (bitSize : Nat) : Except String Nat :=
  if s.data = [] then .error ("strconv.ParseUint: parsing " ++ s ++ ": invalid syntax")
  else if s.data.all isDigit then
    let n := s.data.foldl (fun acc c => acc * 10 + (c.toNat - 48)) 0
    if n < 2 ^ bitSize then .ok n
    else .error ("strconv.ParseUint: parsing " ++ s ++ ": value out of range")
  else .error ("strconv.ParseUint: parsing " ++ s ++ ": invalid syntax")

/-- The body of the `strconv.ParseInt` model after the sign has been
stripped: `neg` records a leading minus, `orig` is the original string used
in error messages. -/
def goParseIntMag (orig digits : String) (neg : Bool) (bitSize : Nat) : Except String Int :=
  match goParseUint digits 64 with
  | .error _ => .error ("strconv.ParseInt: parsing " ++ orig ++ ": invalid syntax")
  | .ok n =>
    if neg then
      if n ≤ 2 ^ (bitSize - 1) then .ok (-(n : Int))
      else .error ("strconv.ParseInt: parsing " ++ orig ++ ": value out of range")
    else
      if n < 2 ^ (bitSize - 1) then .ok (n : Int)
      else .error ("strconv.ParseInt: parsing " ++ orig ++ ": value out of range")

/-- Model of `strconv.ParseInt(s, 10, bitSize)`: an optional sign followed
by digits, value in the signed `bitSize`-bit range. -/
def goParseInt (s : String) (bitSize : Nat) : Except String Int :=
  match s.data with
  | '+' :: rest => goParseIntMag s ⟨rest⟩ false bitSize
  | '-' :: rest => goParseIntMag s ⟨rest⟩ true bitSize
  | _ => goParseIntMag s s false bitSize

/-- `assignFromEnv` (shift.go): parses a nonempty environment string into
the field's declared type and returns the value the Go code stores with
`SetX` before returning nil. -/
def assignFromEnv (sz : Nat) (std : Stdlib) (envVal : String) :
    FieldType → Except String FieldValue
  | .tString => .ok (.fvString envVal)
  | .tBool =>
    if envVal ≠ "true" ∧ envVal ≠ "false" then
      .error ("invalid value for bool, must be \"true\" or \"false\": " ++ envVal)
    else if envVal = "true" then .ok (.fvBool true)
    else .ok (.fvBool false)
  | .tInt =>
    match goParseInt envVal (sz * 8) with
    | .ok i => .ok (.fvInt i)
    | .error e => .error e
  | .tInt64 =>
    match goParseInt envVal 64 with
    | .ok i => .ok (.fvInt64 i)
    | .error e => .error e
  | .tDuration =>
    match std.parseDuration envVal with
    | .ok d => .ok (.fvDuration d)
    | .error e => .error e
  | .tUint =>
    match goParseUint envVal (sz * 8) with
    | .ok u => .ok (.fvUint u)
    | .error e => .error e
  | .tUint64 =>
    match goParseUint envVal 64 with
    | .ok u => .ok (.fvUint64 u)
    | .error e => .error e
  | .tFloat64 =>
    match std.parseFloat envVal with
    | .ok f => .ok (.fvFloat64 f)
    | .error e => .error e
  | .tTime =>
    match std.parseRFC3339 envVal with
    | .ok t => .ok (.fvTime t)
    | .error e => .error e
  | .tStringArr => .error ("unsupported struct type: " ++ FieldType.string .tStringArr)

/-- Go's `uint64(i)` conversion of an `int64`: reinterpretation modulo 2^64. -/
def uint64OfInt (i : Int) : Nat := (i % (2 ^ 64 : Int)).toNat

/-- The fall-through error at the bottom of `assignFromIntf`:
`unsupported conversion` naming the declared type and the dynamic kind. -/
def convError (ft : FieldType) (val : Intf) : Outcome FieldValue :=
  .err ("unsupported conversion " ++ ft.string ++ " -> " ++ val.typeName)

/-- Element coercion of the `[]string` branch: `str, _ := s[i].(string)`
turns a non-text element into the empty string. -/
def elemString : Intf → String
  | .vString s => s
  | _ => ""

/-- `assignFromIntf` (shift.go): assigns a decoded file value to a field of
the declared type.  Every branch type-checks the dynamic value with a
comma-ok assertion and falls through to `convError` on a mismatch, except
the `time.Time` branch, which reproduces the source's unchecked
`fieldVal.Set(reflect.ValueOf(val))` and therefore panics when the dynamic
value is not a timestamp. -/
def assignFromIntf (sz : Nat) (std : Stdlib) (val : Intf) :
    FieldType → Outcome FieldValue
  | .tString =>
    match val with
    | .vString s => .ok (.fvString s)
    | _ => convError .tString val
  | .tBool =>
    match val with
    | .vBool b => .ok (.fvBool b)
    | _ => convError .tBool val
  | .tInt =>
    match val with
    | .vInt64 i =>
      match int64ToInt sz i with
      | .error e => .err e
      | .ok _ => .ok (.fvInt i)
    | _ => convError .tInt val
  | .tDuration =>
    match val with
    | .vString s =>
      match std.parseDuration s with
      | .ok d => .ok (.fvDuration d)
      | .error e => .err e
    | _ => convError .tDuration val
  | .tInt64 =>
    match val with
    | .vInt64 i =>
      match int64ToInt sz i with
      | .error e => .err e
      | .ok _ => .ok (.fvInt64 i)
    | _ => convError .tInt64 val
  | .tUint =>
    match val with
    | .vInt64 i =>
      match uint64ToUint sz (uint64OfInt i) with
      | .error e => .err e
      | .ok _ => .ok (.fvUint (uint64OfInt i))
    | _ => convError .tUint val
  | .tUint64 =>
    match val with
    | .vInt64 i => .ok (.fvUint64 (uint64OfInt i))
    | _ => convError .tUint64 val
  | .tFloat64 =>
    match val with
    | .vFloat64 f => .ok (.fvFloat64 f)
    | _ => convError .tFloat64 val
  | .tTime =>
    match val with
    | .vTime t => .ok (.fvTime t)
    | _ => .panic ("reflect.Set: value of type " ++ val.typeName
        ++ " is not assignable to type time.Time")
  | .tStringArr =>
    match val with
    | .vArr l => .ok (.fvStringArr (l.map elemString))
    | _ => convError .tStringArr val

/-- C6 fails at timestamp fields: the `time.Time` branch of `assignFromIntf`
assigns through an unchecked `reflect` Set, so a dynamic value of any other
kind (here text) makes the call panic instead of returning the conversion
error that every other branch produces for a kind mismatch. -/
theorem assignFromIntf_time_mismatch_panics :
    assignFromIntf 8 stdModel (.vString "2006-01-02T15:04:05Z") .tTime
      = .panic "reflect.Set: value of type string is not assignable to type time.Time" := rfl

/-- C7: a negative 64-bit integer decoded from the file and bound to a
64-bit unsigned field is accepted and stored reinterpreted modulo 2^64 with
no negative-value rejection; for the native-width unsigned field the only
rejection applied is `uint64ToUint`'s range check on the reinterpreted
value. -/
theorem assignFromIntf_unsigned_reinterprets :
    (∀ (sz : Nat) (std : Stdlib) (i : Int), i < 0 →
      assignFromIntf sz std (.vInt64 i) .tUint64 = .ok (.fvUint64 (uint64OfInt i)))
    ∧ (∀ (sz : Nat) (std : Stdlib) (i : Int) (u : Nat),
        uint64ToUint sz (uint64OfInt i) = .ok u →
        assignFromIntf sz std (.vInt64 i) .tUint = .ok (.fvUint (uint64OfInt i)))
    ∧ (∀ (sz : Nat) (std : Stdlib) (i : Int) (e : String),
        uint64ToUint sz (uint64OfInt i) = .error e →
        assignFromIntf sz std (.vInt64 i) .tUint = .err e) := by
  refine ⟨fun sz std i _ => rfl, fun sz std i u h => ?_, fun sz std i e h => ?_⟩
  · simp only [assignFromIntf, h]
  · simp only [assignFromIntf, h]

/-- Concrete instances of `assignFromIntf_unsigned_reinterprets`. -/
theorem assignFromIntf_unsigned_reinterprets_check :
    assignFromIntf 8 stdModel (.vInt64 (-5)) .tUint64 = .ok (.fvUint64 18446744073709551611)
    ∧ assignFromIntf 8 stdModel (.vInt64 (-5)) .tUint = .ok (.fvUint 18446744073709551611)
    ∧ assignFromIntf 4 stdModel (.vInt64 (-5)) .tUint
        = .err "unsigned integer too big 18446744073709551611" :=
  ⟨assignFromIntf_unsigned_reinterprets.1 8 stdModel (-5) (by decide),
   assignFromIntf_unsigned_reinterprets.2.1 8 stdModel (-5) 18446744073709551611 rfl,
   assignFromIntf_unsigned_reinterprets.2.2 4 stdModel (-5)
     "unsigned integer too big 18446744073709551611" rfl⟩

/-- One field of the target struct: its Go name, its `shift` tag (the empty
string when the tag is absent — Go's `Tag.Get` cannot distinguish the two)
and its declared type. -/
structure StructField where
  name : String
  tag : String
  type : FieldType
deriving DecidableEq, Repr

/-- `getKeyName` (shift.go): the tag "-" omits the field, any other
nonempty tag is the key verbatim, otherwise the key is derived from the
field name by `toCamel`. -/
def getKeyName (f : StructField) : String :=
  if f.tag = "-" then ""
  else if f.tag ≠ "" then f.tag
  else toCamel f.name

/-- `strings.ToUpper` modelled on ASCII: uppercases every character. -/
def toUpperStr (s : String) : String := ⟨s.data.map Char.toUpper⟩

/-- The environment-variable name `bind` looks up for a resolved key: the
key, prefixed by `pfx` and an underscore when `pfx` is nonempty, then
uppercased.  `pfx` models the `envPrefix` parameter of the source. -/
def envLookupName (pfx key : String) : String :=
  toUpperStr (if pfx ≠ "" then pfx ++ "_" ++ key else key)

/-- An error or panic escaping `bind` / `Load`. -/
inductive GoErr
  | goError (msg : String)
  | goPanic (msg : String)
deriving DecidableEq, Repr

/-- Go map lookup on an association list (TOML tables have unique keys). -/
def lookupKey : List (String × Intf) → String → Option Intf
  | [], _ => none
  | (k, v) :: rest, key => if k = key then some v else lookupKey rest key

/-- `config[key]` in `bind`; a `none` mapping models the nil map `bind`
receives when the file provided no values. -/
def configLookup (config : Option (List (String × Intf))) (key : String) : Option Intf :=
  match config with
  | none => none
  | some m => lookupKey m key

/-- `bind` (shift.go): walks the fields in declaration order, skipping a
field with an empty resolved key, consulting the environment first and the
decoded file second, and leaving a field untouched when neither source has
it.  Returns the final field values with the first error or panic; on an
error the failing field and all later fields keep their previous values,
exactly as the in-place Go mutation leaves them. -/
def bind (sz : Nat) (std : Stdlib) (pfx : String) (environment : String → String)
    (config : Option (List (String × Intf))) :
    List StructField → List FieldValue → List FieldValue × Option GoErr
  | [], vs => (vs, none)
  | _ :: _, [] => ([], none)
  | f :: fs, v :: vs =>
    let key := getKeyName f
    if key = "" then
      let r := bind sz std pfx environment config fs vs
      (v :: r.1, r.2)
    else
      let envVal := environment (envLookupName pfx key)
      if envVal ≠ "" then
        match assignFromEnv sz std envVal f.type with
        | .error e => (v :: vs, some (.goError ("failed to assign key " ++ key ++ ": " ++ e)))
        | .ok v' =>
          let r := bind sz std pfx environment config fs vs
          (v' :: r.1, r.2)
      else
        match configLookup config key with
        | some intf =>
          match assignFromIntf sz std intf f.type with
          | .ok v' =>
            let r := bind sz std pfx environment config fs vs
            (v' :: r.1, r.2)
          | .err e => (v :: vs, some (.goError ("failed to assign key " ++ key ++ ": " ++ e)))
          | .panic e => (v :: vs, some (.goPanic e))
        | none =>
          let r := bind sz std pfx environment config fs vs
          (v :: r.1, r.2)

/-- C2: when the environment lookup of the uppercased (optionally prefixed)
key of a field with a nonempty resolved key returns a nonempty string,
`bind` assigns that field the environment-parsed value and proceeds with
the remaining fields, for every decoded-file mapping `config` — including
one containing the same key, which is therefore never consulted for this
field — so whenever both sources provide a value the bound value is the
environment's parsed value.  (`bind` processes each field as the head of
its own suffix, so this is the per-field statement.) -/
theorem bind_env_precedence (sz : Nat) (std : Stdlib) (pfx : String)
    (environment : String → String) (config : Option (List (String × Intf)))
    (f : StructField) (fs : List StructField) (v : FieldValue) (vs : List FieldValue)
    (v' : FieldValue)
    (hkey : getKeyName f ≠ "")
    (henv : environment (envLookupName pfx (getKeyName f)) ≠ "")
    (hassign : assignFromEnv sz std (environment (envLookupName pfx (getKeyName f))) f.type
        = .ok v') :
    bind sz std pfx environment config (f :: fs) (v :: vs)
      = (v' :: (bind sz std pfx environment config fs vs).1,
         (bind sz std pfx environment config fs vs).2) := by
  simp only [bind]
  rw [if_neg hkey, if_pos henv, hassign]

/-- Concrete instance of `bind_env_precedence`: the file mapping contains
the same key with a different value, yet the bound value is the parsed
environment value. -/
theorem bind_env_precedence_check :
    bind 8 stdModel "" (fun k => if k = "PORT" then "8080" else "")
        (some [("port", .vString "file-value")])
        [⟨"Port", "", .tString⟩] [.fvString "old"]
      = ([.fvString "8080"], none) :=
  bind_env_precedence 8 stdModel "" (fun k => if k = "PORT" then "8080" else "")
    (some [("port", .vString "file-value")])
    ⟨"Port", "", .tString⟩ [] (.fvString "old") [] (.fvString "8080")
    (by decide) (by decide) rfl

/-- C10: a field whose resolved key is empty (the omit sentinel), and a
field for which the environment value is empty while the decoded-file
mapping has no entry for its resolved key, hold exactly the value they held
before the call — `bind` neither assigns nor clears them, whatever happens
at the other fields (even when a later field fails). -/
theorem bind_skip_frame (sz : Nat) (std : Stdlib) (pfx : String)
    (environment : String → String) (config : Option (List (String × Intf))) :
    ∀ (fields : List StructField) (vals : List FieldValue) (i : Nat) (f : StructField),
      fields.get? i = some f →
      (getKeyName f = "" ∨
        (environment (envLookupName pfx (getKeyName f)) = ""
          ∧ configLookup config (getKeyName f) = none)) →
      (bind sz std pfx environment config fields vals).1.get? i = vals.get? i := by
  intro fields
  induction fields with
  | nil => intro vals i f hf _; simp at hf
  | cons g fs ih =>
    intro vals i f hf hskip
    cases vals with
    | nil => simp [bind]
    | cons v vs =>
      cases i with
      | zero =>
        simp only [List.get?_cons_zero, Option.some_inj] at hf
        subst hf
        rcases hskip with hk | ⟨he, hc⟩
        · simp [bind, hk]
        · by_cases hk : getKeyName g = ""
          · simp [bind, hk]
          · simp [bind, hk, he, hc]
      | succ j =>
        have hf' : fs.get? j = some f := hf
        simp only [bind, List.get?_cons_succ]
        split
        · simpa using ih vs j f hf' hskip
        · split
          · split
            · rfl
            · simpa using ih vs j f hf' hskip
          · split
            · split
              · simpa using ih vs j f hf' hskip
              · rfl
              · rfl
            · simpa using ih vs j f hf' hskip

/-- Concrete instance of `bind_skip_frame`: an omitted field and a field
absent from both sources keep their pre-call values while a third field is
assigned from the file. -/
theorem bind_skip_frame_check :
    ((bind 8 stdModel "" (fun _ => "") (some [("port", .vString "file-value")])
        [⟨"Secret", "-", .tString⟩, ⟨"Other", "", .tString⟩, ⟨"Port", "", .tString⟩]
        [.fvString "keep1", .fvString "keep2", .fvString "old"]).1.get? 0
      = some (.fvString "keep1"))
    ∧ ((bind 8 stdModel "" (fun _ => "") (some [("port", .vString "file-value")])
        [⟨"Secret", "-", .tString⟩, ⟨"Other", "", .tString⟩, ⟨"Port", "", .tString⟩]
        [.fvString "keep1", .fvString "keep2", .fvString "old"]).1.get? 1
      = some (.fvString "keep2")) :=
  ⟨bind_skip_frame 8 stdModel "" (fun _ => "") (some [("port", .vString "file-value")])
      [⟨"Secret", "-", .tString⟩, ⟨"Other", "", .tString⟩, ⟨"Port", "", .tString⟩]
      [.fvString "keep1", .fvString "keep2", .fvString "old"] 0 ⟨"Secret", "-", .tString⟩
      rfl (Or.inl rfl),
   bind_skip_frame 8 stdModel "" (fun _ => "") (some [("port", .vString "file-value")])
      [⟨"Secret", "-", .tString⟩, ⟨"Other", "", .tString⟩, ⟨"Port", "", .tString⟩]
      [.fvString "keep1", .fvString "keep2", .fvString "old"] 1 ⟨"Other", "", .tString⟩
      rfl (Or.inr ⟨rfl, rfl⟩)⟩

/-- The kinds of Go types `Load`'s schema check inspects. -/
inductive GoKind
  | kPtr
  | kStruct
  | kOther
deriving DecidableEq, Repr

/-- A Go type as far as `Load` needs it: a pointer type, a struct type with
its fields, or any other type with its printed name. -/
inductive GoType
  | ptrTo (t : GoType)
  | structT (name : String) (fields : List StructField)
  | otherT (name : String)

/-- `reflect.Type.Kind()`. -/
def GoType.kind : GoType → GoKind
  | .ptrTo _ => .kPtr
  | .structT _ _ => .kStruct
  | .otherT _ => .kOther

/-- `reflect.Type.String()`. -/
def GoType.string : GoType → String
  | .ptrTo t => "*" ++ t.string
  | .structT n _ => n
  | .otherT n => n

/-- `reflect.Type.Elem()`; `Load` only calls it on pointer types. -/
def GoType.elem : GoType → GoType
  | .ptrTo t => t
  | t => t

/-- The fields of a struct type, read after the kind checks succeeded. -/
def GoType.structFields : GoType → List StructField
  | .structT _ fields => fields
  | _ => []

/-- The argument `c` of `Load`: the untyped nil interface, or a value of
some Go type; in the pointer-to-struct case `vals` holds the pointed-to
field values. -/
inductive LoadArg
  | nilArg
  | val (t : GoType) (vals : List FieldValue)

/-- `reflect.TypeOf`: returns no type for the nil interface. -/
def reflectTypeOf : LoadArg → Option GoType
  | .nilArg => none
  | .val t _ => some t

/-- The field values reached through the argument. -/
def LoadArg.vals : LoadArg → List FieldValue
  | .nilArg => []
  | .val _ vs => vs

/-- What the file-decode collaborator (`toml.DecodeFile`) reports: a
file-not-found condition (recognised by `os.IsNotExist`) is distinguishable
from every other error. -/
inductive DecodeErr
  | notExist (msg : String)
  | other (msg : String)

/-- The collaborator's output: the value it stored through the
out-parameter `i` (`none` when `i` was left nil, as on a failed open) and
the returned error. -/
structure DecodeOut where
  value : Option Intf
  error : Option DecodeErr

/-- Result of extracting the active environment section in `Load`. -/
inductive ExtractRes
  | okRes (m : Option (List (String × Intf)))
  | panicRes (msg : String)

/-- The extraction of the environment section in `Load`: the type assertion
`i.(map[string]interface ...)` on the decoded value (the decoder always
produces a non-nil table, so the `topLevel != nil` guard is taken), the
lookup of the `env` key, and the single-value assertion
`envLevel.(map[string]interface ...)` on its result.  A failed single-value
type assertion panics in Go; in particular, when the top-level mapping has
no entry for `env`, `envLevel` is the nil interface and the assertion
panics. -/
def extractEnvMap : Option Intf → String → ExtractRes
  | none, _ => .okRes none
  | some iv, env =>
    match iv with
    | .vMap topLevel =>
      match lookupKey topLevel env with
      | some (.vMap l) => .okRes (some l)
      | some iv2 => .panicRes ("interface conversion: interface \x7b\x7d is "
          ++ iv2.typeName ++ ", not map[string]interface \x7b\x7d")
      | none => .panicRes
          "interface conversion: interface \x7b\x7d is nil, not map[string]interface \x7b\x7d"
    | iv2 => .panicRes ("interface conversion: interface \x7b\x7d is "
        ++ iv2.typeName ++ ", not map[string]interface \x7b\x7d")

/-- `Load` (shift.go), with the decode collaborator passed as a parameter.
Returns the final field values of the record — unchanged whenever an error
or panic occurs before binding — together with the error or panic.  A nil
argument makes `reflect.TypeOf` return nil and the `typ.Kind()` call panic
with a nil dereference. -/
def Load (sz : Nat) (std : Stdlib) (decodeFile : String → DecodeOut) (c : LoadArg)
    (file pfx env : String) (environment : String → String) :
    List FieldValue × Option GoErr :=
  match reflectTypeOf c with
  | none => (c.vals, some (.goPanic
      "runtime error: invalid memory address or nil pointer dereference"))
  | some typ =>
    if typ.kind ≠ .kPtr then
      (c.vals, some (.goError ("'c' must be a pointer to a struct, was: " ++ typ.string)))
    else if typ.elem.kind ≠ .kStruct then
      (c.vals, some (.goError ("'c' must be a pointer to a struct, was: " ++ typ.elem.string)))
    else
      let dec := decodeFile file
      match dec.error with
      | some (.other msg) => (c.vals, some (.goError msg))
      | _ =>
        match extractEnvMap dec.value env with
        | .panicRes msg => (c.vals, some (.goPanic msg))
        | .okRes m => bind sz std pfx environment m typ.elem.structFields c.vals

/-- C3 fails: when the file decodes successfully but the top-level mapping
has no entry named `env`, `envLevel := topLevel[env]` is the nil interface
and the unchecked assertion `envLevel.(map[string]interface ...)` panics —
`Load` neither proceeds with an empty mapping nor returns normally.  Here
the file holds a "prod" section and `Load` is called for "dev". -/
theorem Load_missing_env_section_panics :
    Load 8 stdModel (fun _ => ⟨some (.vMap [("prod", .vMap [("port", .vInt64 1)])]), none⟩)
        (.val (.ptrTo (.structT "testStruct" [⟨"Port", "", .tString⟩])) [.fvString "old"])
        "conf.toml" "" "dev" (fun _ => "")
      = ([.fvString "old"], some (.goPanic
          "interface conversion: interface \x7b\x7d is nil, not map[string]interface \x7b\x7d")) :=
  rfl

/-- C4 fails for the nil argument: `reflect.TypeOf(nil)` is nil inside
`Load`, so the `typ.Kind()` method call panics with a nil dereference
instead of returning a schema error. -/
theorem Load_nil_argument_panics :
    Load 8 stdModel (fun _ => ⟨none, none⟩) .nilArg "conf.toml" "" "dev" (fun _ => "")
      = ([], some (.goPanic
          "runtime error: invalid memory address or nil pointer dereference")) :=
  rfl

/-- C4 amended: for every non-nil argument that is not a pointer to a
struct, `Load` returns the schema error naming the actual type, identically
for every decode collaborator and environment — so before the file decoder
or any environment lookup is consulted — and does not panic; a nil argument
instead panics. -/
theorem Load_rejects_non_struct_pointer :
    (∀ (sz : Nat) (std : Stdlib) (decodeFile : String → DecodeOut) (t : GoType)
        (vals : List FieldValue) (file pfx env : String) (environment : String → String),
      t.kind ≠ .kPtr →
      Load sz std decodeFile (.val t vals) file pfx env environment
        = (vals, some (.goError ("'c' must be a pointer to a struct, was: " ++ t.string))))
    ∧ (∀ (sz : Nat) (std : Stdlib) (decodeFile : String → DecodeOut) (t : GoType)
        (vals : List FieldValue) (file pfx env : String) (environment : String → String),
      t.kind = .kPtr → t.elem.kind ≠ .kStruct →
      Load sz std decodeFile (.val t vals) file pfx env environment
        = (vals, some (.goError ("'c' must be a pointer to a struct, was: "
            ++ t.elem.string)))) := by
  constructor
  · intro sz std decodeFile t vals file pfx env environment h
    simp [Load, reflectTypeOf, LoadArg.vals, h]
  · intro sz std decodeFile t vals file pfx env environment h1 h2
    simp [Load, reflectTypeOf, LoadArg.vals, h1, h2]

/-- Concrete instances of `Load_rejects_non_struct_pointer`: a non-pointer
argument and a pointer to a non-struct. -/
theorem Load_rejects_non_struct_pointer_check :
    Load 8 stdModel (fun _ => ⟨none, none⟩) (.val (.otherT "int") [])
        "conf.toml" "" "dev" (fun _ => "")
      = ([], some (.goError "'c' must be a pointer to a struct, was: int"))
    ∧ Load 8 stdModel (fun _ => ⟨none, none⟩) (.val (.ptrTo (.otherT "int")) [])
        "conf.toml" "" "dev" (fun _ => "")
      = ([], some (.goError "'c' must be a pointer to a struct, was: int")) :=
  ⟨Load_rejects_non_struct_pointer.1 8 stdModel (fun _ => ⟨none, none⟩) (.otherT "int") []
      "conf.toml" "" "dev" (fun _ => "") (by decide),
   Load_rejects_non_struct_pointer.2 8 stdModel (fun _ => ⟨none, none⟩) (.ptrTo (.otherT "int"))
      [] "conf.toml" "" "dev" (fun _ => "") (by decide) (by decide)⟩

/-- C5: a file-not-found condition from the decode collaborator is not
returned: `Load` proceeds exactly as with no file-sourced values, binding
every field from the environment alone over the caller's previous values
(`bind` with the nil mapping); any other decode error is returned
immediately with every field left unchanged and no binding performed. -/
theorem Load_decode_error_handling :
    (∀ (sz : Nat) (std : Stdlib) (name : String) (fields : List StructField)
        (vals : List FieldValue) (file pfx env msg : String)
        (environment : String → String),
      Load sz std (fun _ => ⟨none, some (.notExist msg)⟩)
          (.val (.ptrTo (.structT name fields)) vals) file pfx env environment
        = bind sz std pfx environment none fields vals)
    ∧ (∀ (sz : Nat) (std : Stdlib) (name : String) (fields : List StructField)
        (vals : List FieldValue) (file pfx env msg : String)
        (environment : String → String) (iv : Option Intf),
      Load sz std (fun _ => ⟨iv, some (.other msg)⟩)
          (.val (.ptrTo (.structT name fields)) vals) file pfx env environment
        = (vals, some (.goError msg))) :=
  ⟨fun _ _ _ _ _ _ _ _ _ _ => rfl, fun _ _ _ _ _ _ _ _ _ _ _ => rfl⟩

end Shift
